import Mathlib

/-!
Verification of the Prominence color-palette library (Spanfile/Prominence).

This file gives a shallow embedding of the library's core: the color-cut
quantizer (src/color_cut_quantizer.rs), the default color filter
(src/filter.rs), swatches (src/swatch.rs), targets (src/target.rs) and the
palette assembler / region handling (src/lib.rs), together with theorems
about the claims of the specification.

Modelling conventions:
* u8 / u32 / usize values are modelled as Nat; wrapping operations carry an
  explicit modulus where the source can overflow.
* f32 values are modelled as exact rationals.  Every concrete comparison
  evaluated in a theorem below is far from an f32 rounding boundary, and the
  float means computed in get_average_color are modelled by Nat division
  (truncation of the exact quotient), which agrees with the f32 computation
  at the magnitudes appearing in this development.
* Rust's std HashMap iteration order is unspecified; the quantizer is
  therefore modelled as a function of an arbitrary enumeration of the
  histogram, and histogram enumeration-order independence is proved where
  the specification claims it.
* Rust's std BinaryHeap pops a greatest element with respect to the given
  Ord instance.  The Vbox Ord instance in the source compares reversed
  volumes, so the heap pops a box of minimal volume; ties between equal
  volumes are unspecified but deterministic, modelled here by popping the
  earliest minimal-volume box.  Rust's slice sort_by and sort_by_key are
  stable sorts, modelled by insertion sort (also stable, hence extensionally
  identical).
-/

namespace Prominence

/-- An RGB triple of 8-bit (or, after quantization, 5-bit) channel values. -/
abbrev Rgb := Nat × Nat × Nat

/-- A histogram entry: a quantized color together with its population count. -/
abbrev Entry := Rgb × Nat

/-- An HSL triple, exact-rational model of the f32 triple in the source. -/
abbrev Hsl := ℚ × ℚ × ℚ

/-- QUANTIZE_WORD_WIDTH constant from color_cut_quantizer.rs. -/
def QUANTIZE_WORD_WIDTH : Nat := 5

/-- QUANTIZE_WORD_MAX constant from color_cut_quantizer.rs: (1 << 5) - 1. -/
def QUANTIZE_WORD_MAX : Nat := 31

/-- modify_width from color_cut_quantizer.rs.  wrapping_shl / wrapping_shr on
u8 wrap the shift amount modulo 8, and the shifted-left result is truncated
to 8 bits. -/
def modifyWidth (value currentWidth targetWidth : Nat) : Nat :=
  if targetWidth > currentWidth then
    (value <<< ((targetWidth - currentWidth) % 8)) % 256
  else
    value >>> ((currentWidth - targetWidth) % 8)

/-- rgb_to_hsl from lib.rs, with f32 arithmetic modelled exactly over ℚ.
The source computes r.max(g).max(b), r.min(g).min(b), chroma, lightness and
then branches exactly as below; the h component is returned multiplied by
60. -/
def rgbToHsl (rgb : Rgb) : Hsl :=
  let r : ℚ := (rgb.1 : ℚ) / 255
  let g : ℚ := (rgb.2.1 : ℚ) / 255
  let b : ℚ := (rgb.2.2 : ℚ) / 255
  let maxc := max (max r g) b
  let minc := min (min r g) b
  let c := maxc - minc
  let l := (maxc + minc) / 2
  if c = 0 then (0, 0, l)
  else
    let s := c / (1 - |2 * l - 1|)
    let segmentShift : ℚ × ℚ :=
      if maxc = r then ((g - b) / c, if (g - b) / c < 0 then 6 else 0)
      else if maxc = g then ((b - r) / c, 2)
      else ((r - g) / c, 4)
    ((segmentShift.1 + segmentShift.2) * 60, s, l)

/-- The Filter trait from filter.rs: a predicate over an RGB color and its
HSL form. -/
def ColorFilter := Rgb → Hsl → Bool

/-- is_black from filter.rs: lightness at most 0.05. -/
def isBlack (l : ℚ) : Bool := l ≤ 1/20

/-- is_white from filter.rs: lightness at least 0.95. -/
def isWhite (l : ℚ) : Bool := 19/20 ≤ l

/-- is_near_red_i_line from filter.rs: hue in the closed band 10..=37 with
saturation at most 0.82. -/
def isNearRedILine (h s : ℚ) : Bool := (10 ≤ h && h ≤ 37) && s ≤ 41/50

/-- DefaultFilter::is_allowed from filter.rs. -/
def DefaultFilter : ColorFilter := fun _ hsl =>
  !isBlack hsl.2.2 && !isWhite hsl.2.2 && !isNearRedILine hsl.1 hsl.2.1

/-- should_ignore_color from color_cut_quantizer.rs: a color is ignored iff
some filter in the list disallows it. -/
def shouldIgnoreColor (filters : List ColorFilter) (rgb : Rgb) : Bool :=
  let hsl := rgbToHsl rgb
  filters.any fun f => !(f rgb hsl)

/-- The Swatch struct from swatch.rs (field order red, blue, green as in the
source). -/
structure Swatch where
  red : Nat
  blue : Nat
  green : Nat
  population : Nat
deriving DecidableEq

/-- Swatch::new from swatch.rs: takes (red, green, blue) and a population. -/
def Swatch.new (rgb : Rgb) (population : Nat) : Swatch :=
  ⟨rgb.1, rgb.2.2, rgb.2.1, population⟩

/-- Swatch::rgb from swatch.rs. -/
def Swatch.rgb (s : Swatch) : Rgb := (s.red, s.green, s.blue)

/-- Swatch::hsl from swatch.rs.  The source converts through the palette
crate's standard sRGB→HSL conversion, which computes the same quantities as
rgb_to_hsl in lib.rs; both are modelled by the exact-rational rgbToHsl. -/
def Swatch.hsl (s : Swatch) : Hsl := rgbToHsl s.rgb

/-- Quantization of one pixel in get_quantized_colors: every channel is
reduced from 8 bits to QUANTIZE_WORD_WIDTH bits. -/
def quantizePixel (p : Rgb) : Rgb :=
  (modifyWidth p.1 8 QUANTIZE_WORD_WIDTH,
   modifyWidth p.2.1 8 QUANTIZE_WORD_WIDTH,
   modifyWidth p.2.2 8 QUANTIZE_WORD_WIDTH)

/-- One histogram increment: bump the count of a quantized color, or append
it with count 1.  Models hist.entry(pixel).or_insert(0) += 1. -/
def histInsert (hist : List Entry) (c : Rgb) : List Entry :=
  match hist with
  | [] => [(c, 1)]
  | (c0, n) :: rest =>
    if c0 = c then (c0, n + 1) :: rest else (c0, n) :: histInsert rest c

/-- The histogram of get_quantized_colors, in one canonical enumeration
order (first-seen order).  The source's HashMap enumerates its entries in an
unspecified order; enumeration-order independence of the final result is
proved below. -/
def buildHist (pixels : List Rgb) : List Entry :=
  pixels.foldl (fun h p => histInsert h (quantizePixel p)) []

/-- The sort key of get_quantized_colors: channels packed into one integer,
red most significant, blue least significant. -/
def packedKey (c : Rgb) : Nat :=
  (c.1 <<< (QUANTIZE_WORD_WIDTH + QUANTIZE_WORD_WIDTH)) ||| (c.2.1 <<< QUANTIZE_WORD_WIDTH) ||| c.2.2

/-- Entry comparison by packed key, used by the sort_by_key call in
get_quantized_colors. -/
def keyLe (e1 e2 : Entry) : Prop := packedKey e1.1 ≤ packedKey e2.1

instance : DecidableRel keyLe := fun _ _ => Nat.decLe _ _

/-- colors.sort_by_key in get_quantized_colors: a stable sort by the packed
key, modelled by (stable) insertion sort. -/
def sortColors (colors : List Entry) : List Entry := List.insertionSort keyLe colors

/-- Strict packed-key comparison, used to show that a sorted entry list with
distinct keys is unique. -/
def keyLt (e1 e2 : Entry) : Prop := packedKey e1.1 < packedKey e2.1

instance : IsAntisymm Entry keyLt :=
  ⟨fun _ _ h1 h2 => absurd h2 (Nat.lt_asymm h1)⟩

instance : IsTotal Entry keyLe :=
  ⟨fun a b => Nat.le_total (packedKey a.1) (packedKey b.1)⟩

instance : IsTrans Entry keyLe :=
  ⟨fun _ _ _ hab hbc => Nat.le_trans hab hbc⟩

/-- A Vbox from color_cut_quantizer.rs is a slice of (color, count) entries;
its population and channel ranges are always recomputed from the slice by
Vbox::new, so they are modelled as functions of the entry list. -/
abbrev Vbox := List Entry

/-- Channel projections of an RGB triple. -/
def redOf (c : Rgb) : Nat := c.1

/-- Green channel projection. -/
def greenOf (c : Rgb) : Nat := c.2.1

/-- Blue channel projection. -/
def blueOf (c : Rgb) : Nat := c.2.2

/-- The population computed by Vbox::new: the sum of entry counts. -/
def Vbox.population (b : Vbox) : Nat := (b.map Prod.snd).sum

/-- The channel minimum computed by Vbox::new (fold starting from
QUANTIZE_WORD_MAX). -/
def chanMin (f : Rgb → Nat) (b : Vbox) : Nat :=
  b.foldl (fun m e => min m (f e.1)) QUANTIZE_WORD_MAX

/-- The channel maximum computed by Vbox::new (fold starting from 0). -/
def chanMax (f : Rgb → Nat) (b : Vbox) : Nat :=
  b.foldl (fun m e => max m (f e.1)) 0

/-- Vbox::volume: the product over channels of (max - min + 1).  Nat
subtraction models the u8 subtraction; for every nonempty box the maximum
bounds the minimum so no truncation occurs. -/
def Vbox.volume (b : Vbox) : Nat :=
  (chanMax redOf b - chanMin redOf b + 1) *
    (chanMax greenOf b - chanMin greenOf b + 1) *
    (chanMax blueOf b - chanMin blueOf b + 1)

/-- Vbox::can_split: more than one entry. -/
def Vbox.canSplit (b : Vbox) : Bool := decide (1 < b.length)

/-- The Component enum from color_cut_quantizer.rs. -/
inductive Component where
  | red
  | green
  | blue
deriving DecidableEq

/-- Channel projection selected by a Component. -/
def componentValue : Component → Rgb → Nat
  | Component.red => redOf
  | Component.green => greenOf
  | Component.blue => blueOf

/-- Vbox::get_longest_dimension: channel lengths are max - min per channel;
red wins ties over green and blue, green wins ties over blue. -/
def Vbox.getLongestDimension (b : Vbox) : Component :=
  let redLength := chanMax redOf b - chanMin redOf b
  let greenLength := chanMax greenOf b - chanMin greenOf b
  let blueLength := chanMax blueOf b - chanMin blueOf b
  if redLength ≥ greenLength ∧ redLength ≥ blueLength then Component.red
  else if greenLength ≥ redLength ∧ greenLength ≥ blueLength then Component.green
  else Component.blue

/-- Entry comparison by a fixed channel, used by
sort_colors_by_longest_dimension. -/
def dimLe (d : Component) (e1 e2 : Entry) : Prop :=
  componentValue d e1.1 ≤ componentValue d e2.1

instance : DecidableRel (dimLe d) := fun _ _ => Nat.decLe _ _

/-- Vbox::sort_colors_by_longest_dimension: a stable sort of the entries by
the longest channel, modelled by (stable) insertion sort. -/
def Vbox.sortByLongestDimension (b : Vbox) : Vbox :=
  List.insertionSort (dimLe (Vbox.getLongestDimension b)) b

/-- The accumulation loop of Vbox::find_split_point: running population sum
and index; returns max i 1 at the first index where the cumulative
population reaches the midpoint, and 1 if the loop ends. -/
def findSplitPointAux (midpoint : Nat) : Nat → Nat → List Entry → Nat
  | _, _, [] => 1
  | pop, i, e :: rest =>
    if pop + e.2 ≥ midpoint then max i 1
    else findSplitPointAux midpoint (pop + e.2) (i + 1) rest

/-- Vbox::find_split_point: midpoint is population / 2 (integer division).
In the source it runs on the already-sorted slice; the cached population
equals the sorted slice's population since sorting permutes the entries. -/
def Vbox.findSplitPoint (b : Vbox) : Nat :=
  findSplitPointAux (Vbox.population b / 2) 0 0 b

/-- Vbox::split_box: sort by the longest dimension, find the split point,
and split the slice there into two sub-slices. -/
def Vbox.splitBox (b : Vbox) : Vbox × Vbox :=
  let sorted := Vbox.sortByLongestDimension b
  let splitPoint := Vbox.findSplitPoint sorted
  (sorted.take splitPoint, sorted.drop splitPoint)

/-- Vbox::get_average_color: population-weighted channel sums, means by
division (f32 division then truncation to u8, modelled by Nat division),
then re-expansion from QUANTIZE_WORD_WIDTH bits to 8 bits. -/
def Vbox.getAverageColor (b : Vbox) : Swatch :=
  let pop := Vbox.population b
  let redSum := (b.map fun e => redOf e.1 * e.2).sum
  let greenSum := (b.map fun e => greenOf e.1 * e.2).sum
  let blueSum := (b.map fun e => blueOf e.1 * e.2).sum
  Swatch.new
    (modifyWidth (redSum / pop) QUANTIZE_WORD_WIDTH 8,
     modifyWidth (greenSum / pop) QUANTIZE_WORD_WIDTH 8,
     modifyWidth (blueSum / pop) QUANTIZE_WORD_WIDTH 8)
    pop

/-- BinaryHeap::pop on the Vbox heap.  The Vbox Ord instance in the source
is other.volume().cmp(&self.volume()), i.e. reversed, and Rust's BinaryHeap
pops a greatest element of its Ord, so the popped box is one of minimal
volume.  Ties are unspecified but deterministic; the model pops the earliest
minimal-volume box. -/
def popMin : List Vbox → Option (Vbox × List Vbox)
  | [] => none
  | b :: rest =>
    match popMin rest with
    | none => some (b, [])
    | some (m, rest') =>
      if Vbox.volume b ≤ Vbox.volume m then some (b, rest) else some (m, b :: rest')

/-- ColorCutQuantizer::split_boxes.  The source loops while the queue holds
fewer than max_colors boxes; each iteration pops a box and either splits it
(pushing both halves) or returns, dropping the popped box.  The loop adds
one box per iteration, so max_colors + 1 fuel is never exhausted before the
loop's own exit conditions fire. -/
def splitBoxes (maxColors : Nat) : Nat → List Vbox → List Vbox
  | 0, pq => pq
  | fuel + 1, pq =>
    if pq.length < maxColors then
      match popMin pq with
      | some br =>
        if Vbox.canSplit br.1 then
          splitBoxes maxColors fuel (br.2 ++ [(Vbox.splitBox br.1).1, (Vbox.splitBox br.1).2])
        else br.2
      | none => pq
    else pq

/-- ColorCutQuantizer::quantize_pixels: seed the queue with one box holding
all entries, run split_boxes, then convert every remaining box to a swatch,
dropping swatches whose average color a filter disallows. -/
def quantizePixels (maxColors : Nat) (filters : List ColorFilter) (colors : List Entry) : List Swatch :=
  let pq := splitBoxes maxColors (maxColors + 1) [colors]
  (pq.map Vbox.getAverageColor).filter fun sw => !shouldIgnoreColor filters (Swatch.rgb sw)

/-- ColorCutQuantizer::get_quantized_colors on a given enumeration of the
histogram: hist_len is the PRE-filter entry count, the entries are filtered,
sorted by the packed key, and either returned directly as swatches (when
hist_len fits the budget) or partitioned. -/
def getQuantizedColorsOn (hist : List Entry) (maxColors : Nat) (filters : List ColorFilter) : List Swatch :=
  let histLen := hist.length
  let colors := hist.filter fun e => !shouldIgnoreColor filters e.1
  let sorted := sortColors colors
  if histLen ≤ maxColors then sorted.map fun e => Swatch.new e.1 e.2
  else quantizePixels maxColors filters sorted

/-- ColorCutQuantizer::get_quantized_colors on a pixel buffer, using the
canonical histogram enumeration. -/
def getQuantizedColors (pixels : List Rgb) (maxColors : Nat) (filters : List ColorFilter) : List Swatch :=
  getQuantizedColorsOn (buildHist pixels) maxColors filters

/-- The Target struct from target.rs; the f32 fields are modelled as exact
rationals (every constant in target.rs is a short decimal). -/
structure Target where
  name : Nat
  saturationTargets : ℚ × ℚ × ℚ
  lightnessTargets : ℚ × ℚ × ℚ
  weights : ℚ × ℚ × ℚ
  isExclusive : Bool
deriving DecidableEq

/-- Target::new from target.rs; rand::random() for the name is modelled by
an explicit parameter. -/
def Target.new (name : Nat) : Target :=
  { name := name
    saturationTargets := (0, 1/2, 1)
    lightnessTargets := (0, 1/2, 1)
    weights := (6/25, 13/25, 6/25)
    isExclusive := true }

/-- Target::light_vibrant from target.rs (name 0). -/
def Target.lightVibrant : Target :=
  { Target.new 0 with
    saturationTargets := (7/20, 1, 1)
    lightnessTargets := (11/20, 37/50, 1) }

/-- Target::vibrant from target.rs (name 1). -/
def Target.vibrant : Target :=
  { Target.new 1 with
    saturationTargets := (7/20, 1, 1)
    lightnessTargets := (3/10, 1/2, 7/10) }

/-- Target::dark_vibrant from target.rs (name 2). -/
def Target.darkVibrant : Target :=
  { Target.new 2 with
    saturationTargets := (7/20, 1, 1)
    lightnessTargets := (0, 13/50, 9/20) }

/-- Target::light_muted from target.rs (name 3). -/
def Target.lightMuted : Target :=
  { Target.new 3 with
    saturationTargets := (0, 3/10, 2/5)
    lightnessTargets := (11/20, 37/50, 1) }

/-- Target::muted from target.rs (name 4). -/
def Target.muted : Target :=
  { Target.new 4 with
    saturationTargets := (0, 3/10, 2/5)
    lightnessTargets := (3/10, 1/2, 7/10) }

/-- Target::dark_muted from target.rs (name 5). -/
def Target.darkMuted : Target :=
  { Target.new 5 with
    saturationTargets := (0, 3/10, 2/5)
    lightnessTargets := (0, 13/50, 9/20) }

/-- Target::default_targets from target.rs. -/
def Target.defaultTargets : List Target :=
  [Target.lightVibrant, Target.vibrant, Target.darkVibrant,
   Target.lightMuted, Target.muted, Target.darkMuted]

/-- Target::normalize_weights from target.rs: when the weight sum is
nonzero, each strictly positive weight is divided by the sum; other weights
(including negative ones) are left unchanged.  When the sum is zero nothing
changes. -/
def Target.normalizeWeights (t : Target) : Target :=
  let weightsSum := t.weights.1 + t.weights.2.1 + t.weights.2.2
  if weightsSum ≠ 0 then
    { t with weights :=
        (if t.weights.1 > 0 then t.weights.1 / weightsSum else t.weights.1,
         if t.weights.2.1 > 0 then t.weights.2.1 / weightsSum else t.weights.2.1,
         if t.weights.2.2 > 0 then t.weights.2.2 / weightsSum else t.weights.2.2) }
  else t

/-- Target::minimum_saturation. -/
def Target.minimumSaturation (t : Target) : ℚ := t.saturationTargets.1

/-- Target::target_saturation. -/
def Target.targetSaturation (t : Target) : ℚ := t.saturationTargets.2.1

/-- Target::maximum_saturation. -/
def Target.maximumSaturation (t : Target) : ℚ := t.saturationTargets.2.2

/-- Target::minimum_lightness. -/
def Target.minimumLightness (t : Target) : ℚ := t.lightnessTargets.1

/-- Target::target_lightness. -/
def Target.targetLightness (t : Target) : ℚ := t.lightnessTargets.2.1

/-- Target::maximum_lightness. -/
def Target.maximumLightness (t : Target) : ℚ := t.lightnessTargets.2.2

/-- Target::saturation_weight. -/
def Target.saturationWeight (t : Target) : ℚ := t.weights.1

/-- Target::lightness_weight. -/
def Target.lightnessWeight (t : Target) : ℚ := t.weights.2.1

/-- Target::population_weight. -/
def Target.populationWeight (t : Target) : ℚ := t.weights.2.2

/-- should_be_scored_for_target from lib.rs: saturation and lightness within
the target's closed ranges, and the swatch color not yet claimed.  The
used-colors HashSet is modelled by a list with membership semantics. -/
def shouldBeScoredForTarget (swatch : Swatch) (target : Target) (usedColors : List Rgb) : Bool :=
  let hsl := Swatch.hsl swatch
  decide (target.minimumSaturation ≤ hsl.2.1 ∧ hsl.2.1 ≤ target.maximumSaturation) &&
    decide (target.minimumLightness ≤ hsl.2.2 ∧ hsl.2.2 ≤ target.maximumLightness) &&
    !(decide (Swatch.rgb swatch ∈ usedColors))

/-- Iterator::max_by_key(population) from get_max_scored_swatch_for_target:
Rust returns the LAST element among equally maximal ones, modelled by a left
fold that replaces the accumulator unless it is strictly greater. -/
def dominantSwatch (swatches : List Swatch) : Option Swatch :=
  swatches.foldl
    (fun acc sw =>
      match acc with
      | none => some sw
      | some m => if m.population > sw.population then some m else some sw)
    none

/-- generate_score from lib.rs, with f32 arithmetic modelled exactly over
ℚ. -/
def generateScore (swatch : Swatch) (dominant : Option Swatch) (target : Target) : ℚ :=
  let hsl := Swatch.hsl swatch
  let maxPopulation : ℚ :=
    match dominant with
    | some d => (d.population : ℚ)
    | none => 1
  let saturationScore := target.saturationWeight * (1 - |hsl.2.1 - target.targetSaturation|)
  let lightnessScore := target.lightnessWeight * (1 - |hsl.2.2 - target.targetLightness|)
  let populationScore := target.populationWeight * ((swatch.population : ℚ) / maxPopulation)
  saturationScore + lightnessScore + populationScore

/-- One step of Iterator::max_by: the standard library folds, keeping the
current maximum only when it is strictly greater under the comparator, so
the LAST element among equally maximal ones wins. -/
def maxByStep (score : Swatch → ℚ) (acc : Option Swatch) (sw : Swatch) : Option Swatch :=
  match acc with
  | none => some sw
  | some m => if score m > score sw then some m else some sw

/-- Iterator::max_by over scores from get_max_scored_swatch_for_target. -/
def maxByScore (score : Swatch → ℚ) (swatches : List Swatch) : Option Swatch :=
  swatches.foldl (maxByStep score) none

/-- get_max_scored_swatch_for_target from lib.rs. -/
def getMaxScoredSwatchForTarget (swatches : List Swatch) (target : Target) (usedColors : List Rgb) : Option Swatch :=
  let dominant := dominantSwatch swatches
  maxByScore (fun sw => generateScore sw dominant target)
    (swatches.filter fun sw => shouldBeScoredForTarget sw target usedColors)

/-- generate_scored_target from lib.rs: exclusive targets claim the best
swatch and record its color in the used-colors set (modelled by consing onto
the list). -/
def generateScoredTarget (swatches : List Swatch) (target : Target) (usedColors : List Rgb) : Option Swatch × List Rgb :=
  if target.isExclusive then
    match getMaxScoredSwatchForTarget swatches target usedColors with
    | some m => (some m, Swatch.rgb m :: usedColors)
    | none => (none, usedColors)
  else (none, usedColors)

/-- The per-target selection loop of PaletteBuilder::generate: each target's
weights are normalized, then generate_scored_target runs with the threaded
used-colors set. -/
def selectSwatchesAux (swatches : List Swatch) : List Target → List Rgb → List (Option Swatch)
  | [], _ => []
  | t :: ts, used =>
    let res := generateScoredTarget swatches (Target.normalizeWeights t) used
    res.1 :: selectSwatchesAux swatches ts res.2

/-- The full selection pass of PaletteBuilder::generate, starting from an
empty used-colors set; the result lists each target's selected swatch in
target order. -/
def selectSwatches (swatches : List Swatch) (targets : List Target) : List (Option Swatch) :=
  selectSwatchesAux swatches targets []

/-- The Rect struct of the image crate as used for the region option. -/
structure Rect where
  x : Nat
  y : Nat
  width : Nat
  height : Nat
deriving DecidableEq

/-- The region-rescaling block of PaletteBuilder::generate, executed when
scale_image_down has shrunk the image: scale is the RESIZED image's
width / height (its aspect quotient, an f32 modelled exactly over ℚ), each
coordinate is multiplied by it and truncated, and width/height are clamped
against the resized bounds using the already-updated x and y.  Nat
subtraction models the u32 subtraction (which never underflows on the
inputs evaluated below). -/
def scaleRegion (region : Rect) (scaledWidth scaledHeight : Nat) : Rect :=
  let scale : ℚ := (scaledWidth : ℚ) / (scaledHeight : ℚ)
  let x := (Int.floor ((region.x : ℚ) * scale)).toNat
  let y := (Int.floor ((region.y : ℚ) * scale)).toNat
  let width := min ((Int.floor ((region.width : ℚ) * scale)).toNat + x) (scaledWidth - x)
  let height := min ((Int.floor ((region.height : ℚ) * scale)).toNat + y) (scaledHeight - y)
  ⟨x, y, width, height⟩

/-- The resize of PaletteBuilder::scale_image_down: the image is resized to
(ceil (width * r), ceil (height * r)) where r = sqrt(resize_area / area) is
computed in f32.  The square root is supplied here as a parameter, as the
exact rational value it takes on inputs where it is exact. -/
def resizeDims (width height : Nat) (r : ℚ) : Nat × Nat :=
  ((Int.ceil ((width : ℚ) * r)).toNat, (Int.ceil ((height : ℚ) * r)).toNat)

/-- A user-supplied filter allowing every color except pure black, used as a
concrete instance of the pluggable Filter trait in counterexamples. -/
def rejectPureBlack : ColorFilter := fun rgb _ => !decide (rgb = ((0, 0, 0) : Rgb))

/-- A user-supplied target with a negative raw weight, exercising
normalize_weights on weights (-1.0, 3.0, 0.0). -/
def negativeWeightTarget : Target := { Target.new 7 with weights := (-1, 3, 0) }

/-- A user-supplied target scoring only by population (weights 0, 0, 1), so
any two equal-population swatches tie. -/
def tiePopulationTarget : Target := { Target.new 9 with weights := (0, 0, 1) }

attribute [local semireducible] Rat.mul Rat.inv Rat.add Rat.sub Rat.ofScientific

/-! Helper lemmas about the histogram of a constant pixel buffer. -/

theorem foldl_histInsert_replicate (p : Rgb) :
    ∀ (n m : Nat),
      List.foldl (fun h q => histInsert h (quantizePixel q)) [(quantizePixel p, m)]
        (List.replicate n p) = [(quantizePixel p, m + n)] := by
  intro n
  induction n with
  | zero => intro m; rfl
  | succ k ih =>
    intro m
    rw [List.replicate_succ, List.foldl_cons]
    have hstep : histInsert [(quantizePixel p, m)] (quantizePixel p) = [(quantizePixel p, m + 1)] := by
      simp [histInsert]
    rw [hstep, ih (m + 1)]
    congr 2
    omega

theorem buildHist_replicate (p : Rgb) (n : Nat) (hn : 1 ≤ n) :
    buildHist (List.replicate n p) = [(quantizePixel p, n)] := by
  obtain ⟨k, rfl⟩ : ∃ k, n = k + 1 := ⟨n - 1, by omega⟩
  rw [buildHist, List.replicate_succ, List.foldl_cons]
  have hfirst : histInsert ([] : List Entry) (quantizePixel p) = [(quantizePixel p, 1)] := rfl
  rw [hfirst, foldl_histInsert_replicate p k 1]
  congr 2
  omega

/-- Claim C1, counterexample: for the 2-pixel buffer of pure red with K = 16
and the default filter, the single returned swatch has RGB (31, 0, 0) — the
5-bit quantized color, not (255, 0, 0) as the claim states. -/
theorem claim1_counterexample :
    (getQuantizedColors (List.replicate 2 ((255, 0, 0) : Rgb)) 16 [DefaultFilter]).map Swatch.rgb
        = [(31, 0, 0)] ∧
      ((31, 0, 0) : Rgb) ≠ (255, 0, 0) := by
  decide

/-- Claim C1 (amended): for a buffer of N ≥ 1 pixels all equal to pure red
(255, 0, 0), with K = 16 and the default filter, the histogram has exactly
one entry, no split is performed (the direct no-partition path runs), and
the result is exactly one swatch with population N whose RGB color is the
un-re-expanded quantized color (31, 0, 0). -/
theorem claim1_single_red (n : Nat) (hn : 1 ≤ n) :
    (buildHist (List.replicate n ((255, 0, 0) : Rgb))).length = 1 ∧
      getQuantizedColors (List.replicate n ((255, 0, 0) : Rgb)) 16 [DefaultFilter]
        = [⟨31, 0, 0, n⟩] := by
  have hq : quantizePixel ((255, 0, 0) : Rgb) = (31, 0, 0) := rfl
  have hb := buildHist_replicate (255, 0, 0) n hn
  rw [hq] at hb
  refine ⟨by rw [hb]; rfl, ?_⟩
  rw [getQuantizedColors, hb, getQuantizedColorsOn]
  rw [if_pos (show ([((31, 0, 0), n)] : List Entry).length ≤ 16 by simp)]
  have hfil : shouldIgnoreColor [DefaultFilter] ((31, 0, 0) : Rgb) = false := by decide
  have hfl : ([((31, 0, 0), n)] : List Entry).filter
      (fun e => !shouldIgnoreColor [DefaultFilter] e.1) = [((31, 0, 0), n)] := by
    simp [hfil, -Prod.mk_zero_zero]
  rw [hfl]
  simp [sortColors, List.insertionSort, List.orderedInsert, Swatch.new]

/-- Claim C1 witness: the amended claim instantiated at N = 3. -/
theorem claim1_single_red_witness :
    1 ≤ 3 ∧
      ((buildHist (List.replicate 3 ((255, 0, 0) : Rgb))).length = 1 ∧
        getQuantizedColors (List.replicate 3 ((255, 0, 0) : Rgb)) 16 [DefaultFilter]
          = [⟨31, 0, 0, 3⟩]) :=
  ⟨by omega, claim1_single_red 3 (by omega)⟩

/-- Claim C2, counterexample: pixels (255,0,0) and (0,0,0) with a filter
rejecting pure black and K = 1.  The post-filter entry count is 1 ≤ K, yet
the quantizer does NOT skip partitioning: hist_len in the source is the
PRE-filter count (2 > 1), so the partition path runs and the single
returned swatch is the re-expanded average (248, 0, 0), not the surviving
entry's direct swatch (31, 0, 0). -/
theorem claim2_counterexample :
    ((buildHist [((255, 0, 0) : Rgb), (0, 0, 0)]).filter
        fun e => !shouldIgnoreColor [rejectPureBlack] e.1) = [((31, 0, 0), 1)] ∧
      getQuantizedColors [((255, 0, 0) : Rgb), (0, 0, 0)] 1 [rejectPureBlack]
        = [⟨248, 0, 0, 1⟩] ∧
      ([⟨248, 0, 0, 1⟩] : List Swatch) ≠ [Swatch.new (31, 0, 0) 1] := by
  decide

/-- Claim C2 (amended): hist_len is the PRE-filter count of distinct
quantized colors.  Whenever that count is ≤ K, the quantizer skips
partitioning and returns one swatch per surviving (post-filter) histogram
entry — exactly the post-filter entry count many swatches, each carrying its
entry's quantized color and population. -/
theorem claim2_direct_path (pixels : List Rgb) (K : Nat) (filters : List ColorFilter)
    (h : (buildHist pixels).length ≤ K) :
    getQuantizedColors pixels K filters =
        (sortColors ((buildHist pixels).filter fun e => !shouldIgnoreColor filters e.1)).map
          (fun e => Swatch.new e.1 e.2) ∧
      (getQuantizedColors pixels K filters).length =
        ((buildHist pixels).filter fun e => !shouldIgnoreColor filters e.1).length := by
  have hmain : getQuantizedColors pixels K filters =
      (sortColors ((buildHist pixels).filter fun e => !shouldIgnoreColor filters e.1)).map
        (fun e => Swatch.new e.1 e.2) := by
    rw [getQuantizedColors, getQuantizedColorsOn, if_pos h]
  refine ⟨hmain, ?_⟩
  rw [hmain, List.length_map]
  exact (List.perm_insertionSort keyLe _).length_eq

/-- Claim C2 witness: the amended claim instantiated at one red pixel,
K = 1, no filters. -/
theorem claim2_direct_path_witness :
    (buildHist [((255, 0, 0) : Rgb)]).length ≤ 1 ∧
      (getQuantizedColors [((255, 0, 0) : Rgb)] 1 [] =
          (sortColors ((buildHist [((255, 0, 0) : Rgb)]).filter
              fun e => !shouldIgnoreColor [] e.1)).map (fun e => Swatch.new e.1 e.2) ∧
        (getQuantizedColors [((255, 0, 0) : Rgb)] 1 []).length =
          ((buildHist [((255, 0, 0) : Rgb)]).filter
              fun e => !shouldIgnoreColor [] e.1).length) :=
  ⟨by decide, claim2_direct_path [((255, 0, 0) : Rgb)] 1 [] (by decide)⟩

/-- Claim C7, counterexample: a target with raw weights (-1, 3, 0) has
weight sum 2, so normalize_weights maps it to (-1, 3/2, 0): the negative
weight is NOT clamped to zero, and the resulting weights neither are all
non-negative nor sum to 1 or 0. -/
theorem claim7_counterexample :
    (Target.normalizeWeights negativeWeightTarget).weights = (-1, 3/2, 0) ∧
      ¬ 0 ≤ (Target.normalizeWeights negativeWeightTarget).weights.1 ∧
      (Target.normalizeWeights negativeWeightTarget).weights.1 +
          (Target.normalizeWeights negativeWeightTarget).weights.2.1 +
          (Target.normalizeWeights negativeWeightTarget).weights.2.2 ≠ 1 ∧
      (Target.normalizeWeights negativeWeightTarget).weights.1 +
          (Target.normalizeWeights negativeWeightTarget).weights.2.1 +
          (Target.normalizeWeights negativeWeightTarget).weights.2.2 ≠ 0 := by
  decide

/-- Claim C7 (amended): normalize_weights divides each strictly positive
weight by the raw sum when that sum is nonzero and leaves other weights
unchanged (there is no clamping).  Consequently, for every target whose raw
weights are all non-negative, after normalize_weights every weight is ≥ 0,
and the weights sum to 1 when the raw sum is nonzero, or all remain 0 when
the raw sum is 0. -/
theorem claim7_weight_normalization (t : Target)
    (h1 : 0 ≤ t.weights.1) (h2 : 0 ≤ t.weights.2.1) (h3 : 0 ≤ t.weights.2.2) :
    (0 ≤ (Target.normalizeWeights t).weights.1 ∧
        0 ≤ (Target.normalizeWeights t).weights.2.1 ∧
        0 ≤ (Target.normalizeWeights t).weights.2.2) ∧
      ((Target.normalizeWeights t).weights.1 + (Target.normalizeWeights t).weights.2.1 +
            (Target.normalizeWeights t).weights.2.2 = 1 ∨
        ((Target.normalizeWeights t).weights.1 = 0 ∧
          (Target.normalizeWeights t).weights.2.1 = 0 ∧
          (Target.normalizeWeights t).weights.2.2 = 0)) := by
  by_cases hs : t.weights.1 + t.weights.2.1 + t.weights.2.2 = 0
  · have e1 : t.weights.1 = 0 := by linarith
    have e2 : t.weights.2.1 = 0 := by linarith
    have e3 : t.weights.2.2 = 0 := by linarith
    have hid : Target.normalizeWeights t = t := by
      rw [Target.normalizeWeights]
      simp [hs]
    rw [hid]
    exact ⟨⟨h1, h2, h3⟩, Or.inr ⟨e1, e2, e3⟩⟩
  · have hpos : 0 < t.weights.1 + t.weights.2.1 + t.weights.2.2 :=
      lt_of_le_of_ne (by linarith) (Ne.symm hs)
    have hw : (Target.normalizeWeights t).weights =
        (if t.weights.1 > 0 then t.weights.1 / (t.weights.1 + t.weights.2.1 + t.weights.2.2) else t.weights.1,
         if t.weights.2.1 > 0 then t.weights.2.1 / (t.weights.1 + t.weights.2.1 + t.weights.2.2) else t.weights.2.1,
         if t.weights.2.2 > 0 then t.weights.2.2 / (t.weights.1 + t.weights.2.1 + t.weights.2.2) else t.weights.2.2) := by
      rw [Target.normalizeWeights]
      simp [hs]
    have hdiv : ∀ w : ℚ, 0 ≤ w →
        (if w > 0 then w / (t.weights.1 + t.weights.2.1 + t.weights.2.2) else w) =
          w / (t.weights.1 + t.weights.2.1 + t.weights.2.2) := by
      intro w hw0
      by_cases hwp : w > 0
      · rw [if_pos hwp]
      · rw [if_neg hwp]
        have : w = 0 := le_antisymm (by linarith) hw0
        rw [this, zero_div]
    rw [hw, hdiv _ h1, hdiv _ h2, hdiv _ h3]
    refine ⟨⟨div_nonneg h1 (le_of_lt hpos), div_nonneg h2 (le_of_lt hpos),
      div_nonneg h3 (le_of_lt hpos)⟩, Or.inl ?_⟩
    rw [div_add_div_same, div_add_div_same]
    exact div_self hs

/-- Claim C7 witness: the amended claim instantiated at the built-in
vibrant target, whose raw weights are (0.24, 0.52, 0.24). -/
theorem claim7_weight_normalization_witness :
    (0 ≤ Target.vibrant.weights.1 ∧ 0 ≤ Target.vibrant.weights.2.1 ∧
        0 ≤ Target.vibrant.weights.2.2) ∧
      ((0 ≤ (Target.normalizeWeights Target.vibrant).weights.1 ∧
          0 ≤ (Target.normalizeWeights Target.vibrant).weights.2.1 ∧
          0 ≤ (Target.normalizeWeights Target.vibrant).weights.2.2) ∧
        ((Target.normalizeWeights Target.vibrant).weights.1 +
              (Target.normalizeWeights Target.vibrant).weights.2.1 +
              (Target.normalizeWeights Target.vibrant).weights.2.2 = 1 ∨
          ((Target.normalizeWeights Target.vibrant).weights.1 = 0 ∧
            (Target.normalizeWeights Target.vibrant).weights.2.1 = 0 ∧
            (Target.normalizeWeights Target.vibrant).weights.2.2 = 0))) :=
  ⟨⟨by decide, by decide, by decide⟩,
    claim7_weight_normalization Target.vibrant (by decide) (by decide) (by decide)⟩

/-- Claim C9 (code bug), evaluated at the failing input: a 400×100 image
with resize_area 10000 is scaled by ratio 1/2 to 200×50, but the region
(10, 10, 20, 20) is scaled by the RESIZED image's aspect quotient
width/height = 4 — generate reads scale from self.image.width() /
self.image.height() after the resize — yielding (40, 40, 120, 10), whereas
scaling x by the claimed resize ratio 1/2 would give 5, not 40. -/
theorem claim9_region_scale_bug :
    resizeDims 400 100 (1/2) = (200, 50) ∧
      scaleRegion ⟨10, 10, 20, 20⟩ 200 50 = ⟨40, 40, 120, 10⟩ ∧
      (Int.floor ((10 : ℚ) * (1/2))).toNat = 5 ∧
      (40 : Nat) ≠ 5 := by
  decide

/-- Claim C10 (code bug), evaluated at the failing input: pixels quantizing
to the four distinct colors (0,0,0), (1,0,0), (2,0,0), (31,0,0), K = 3, no
filters.  After the first split the queue holds a 1-entry box of volume 1
and a 3-entry box of volume 31; the heap pops the MINIMUM-volume box (the
Ord in the source is reversed before being fed to the max-heap, despite the
comment saying the largest pops first), finds it unsplittable, discards it
and stops.  The result is a single swatch although K = 3 was never reached,
and the discarded entry (0,0,0) gets no swatch. -/
theorem claim10_discard_unsplittable :
    getQuantizedColors [((0, 0, 0) : Rgb), (8, 0, 0), (16, 0, 0), (255, 0, 0)] 3 []
        = [⟨88, 0, 0, 3⟩] ∧
      popMin [[(((0, 0, 0) : Rgb), 1)], [((1, 0, 0), 1), ((2, 0, 0), 1), ((31, 0, 0), 1)]]
        = some ([(((0, 0, 0) : Rgb), 1)],
            [[((1, 0, 0), 1), ((2, 0, 0), 1), ((31, 0, 0), 1)]]) ∧
      Vbox.volume [(((0, 0, 0) : Rgb), 1)]
        < Vbox.volume [((1, 0, 0), 1), ((2, 0, 0), 1), ((31, 0, 0), 1)] :=
  ⟨rfl, rfl, by decide⟩

/-! Helper lemmas about the max_by fold. -/

theorem maxByStep_foldl_mem (f : Swatch → ℚ) :
    ∀ (l : List Swatch) (acc : Option Swatch) (m : Swatch),
      List.foldl (maxByStep f) acc l = some m → m ∈ l ∨ acc = some m := by
  intro l
  induction l with
  | nil => intro acc m h; exact Or.inr h
  | cons x xs ih =>
    intro acc m h
    rw [List.foldl_cons] at h
    rcases ih (maxByStep f acc x) m h with hmem | hacc
    · exact Or.inl (List.mem_cons_of_mem x hmem)
    · rcases acc with _ | a
      · simp only [maxByStep, Option.some.injEq] at hacc
        exact Or.inl (hacc ▸ List.mem_cons_self x xs)
      · simp only [maxByStep] at hacc
        by_cases hgt : f a > f x
        · rw [if_pos hgt] at hacc
          exact Or.inr hacc
        · rw [if_neg hgt] at hacc
          cases hacc
          exact Or.inl (List.mem_cons_self x xs)

theorem maxByScore_mem (f : Swatch → ℚ) (l : List Swatch) (m : Swatch)
    (h : maxByScore f l = some m) : m ∈ l := by
  rcases maxByStep_foldl_mem f l none m h with hmem | hacc
  · exact hmem
  · cases hacc

theorem maxByStep_foldl_keep (f : Swatch → ℚ) (m : Swatch) :
    ∀ (l : List Swatch), (∀ x ∈ l, f x < f m) →
      List.foldl (maxByStep f) (some m) l = some m := by
  intro l
  induction l with
  | nil => intro _; rfl
  | cons x xs ih =>
    intro h
    rw [List.foldl_cons]
    have hx : f x < f m := h x (List.mem_cons_self x xs)
    have hstep : maxByStep f (some m) x = some m := by
      simp only [maxByStep]
      rw [if_pos hx]
    rw [hstep]
    exact ih fun y hy => h y (List.mem_cons_of_mem x hy)

theorem maxByStep_foldl_last_max (f : Swatch → ℚ) (m : Swatch) :
    ∀ (l1 : List Swatch) (l2 : List Swatch) (acc : Option Swatch),
      (∀ a, acc = some a → f a ≤ f m) → (∀ x ∈ l1, f x ≤ f m) → (∀ x ∈ l2, f x < f m) →
      List.foldl (maxByStep f) acc (l1 ++ m :: l2) = some m := by
  intro l1
  induction l1 with
  | nil =>
    intro l2 acc hacc _ hlt
    rw [List.nil_append, List.foldl_cons]
    have hstep : maxByStep f acc m = some m := by
      rcases acc with _ | a
      · rfl
      · have := hacc a rfl
        simp only [maxByStep]
        rw [if_neg (by linarith)]
    rw [hstep]
    exact maxByStep_foldl_keep f m l2 hlt
  | cons x xs ih =>
    intro l2 acc hacc hle hlt
    rw [List.cons_append, List.foldl_cons]
    refine ih l2 (maxByStep f acc x) ?_ (fun y hy => hle y (List.mem_cons_of_mem x hy)) hlt
    intro a ha
    have hx : f x ≤ f m := hle x (List.mem_cons_self x xs)
    rcases acc with _ | b
    · simp only [maxByStep, Option.some.injEq] at ha
      exact ha ▸ hx
    · simp only [maxByStep] at ha
      by_cases hgt : f b > f x
      · rw [if_pos hgt] at ha
        cases ha
        exact hacc a rfl
      · rw [if_neg hgt] at ha
        cases ha
        exact hx

/-- Claim C8, counterexample: with a target scoring only by population and
the two equal-population eligible swatches A = (10,10,10) and B =
(20,20,20) listed in that order, the scores tie but the code selects B, the
LAST maximal swatch, not the first-seen A as the claim states (Rust's
Iterator::max_by returns the last of equally maximal elements). -/
theorem claim8_counterexample :
    getMaxScoredSwatchForTarget
        [Swatch.new (10, 10, 10) 5, Swatch.new (20, 20, 20) 5] tiePopulationTarget []
        = some (Swatch.new (20, 20, 20) 5) ∧
      Swatch.new (10, 10, 10) 5 ≠ Swatch.new (20, 20, 20) 5 ∧
      shouldBeScoredForTarget (Swatch.new (10, 10, 10) 5) tiePopulationTarget [] = true ∧
      shouldBeScoredForTarget (Swatch.new (20, 20, 20) 5) tiePopulationTarget [] = true ∧
      generateScore (Swatch.new (10, 10, 10) 5)
          (dominantSwatch [Swatch.new (10, 10, 10) 5, Swatch.new (20, 20, 20) 5])
          tiePopulationTarget
        = generateScore (Swatch.new (20, 20, 20) 5)
          (dominantSwatch [Swatch.new (10, 10, 10) 5, Swatch.new (20, 20, 20) 5])
          tiePopulationTarget := by
  decide

/-- Claim C8 (amended): when selecting the eligible swatch with the maximum
score, ties are broken with LAST-seen winning: if the eligible list splits
as l1 ++ m :: l2 where every swatch in l1 scores at most m's score and every
swatch in l2 scores strictly less, then m — the latest swatch attaining the
maximum — is selected.  First-seen swatches that tie with m lose to m. -/
theorem claim8_tie_break_last (swatches : List Swatch) (target : Target)
    (usedColors : List Rgb) (l1 l2 : List Swatch) (m : Swatch)
    (helig : swatches.filter (fun sw => shouldBeScoredForTarget sw target usedColors)
      = l1 ++ m :: l2)
    (hle : ∀ x ∈ l1, generateScore x (dominantSwatch swatches) target
      ≤ generateScore m (dominantSwatch swatches) target)
    (hlt : ∀ x ∈ l2, generateScore x (dominantSwatch swatches) target
      < generateScore m (dominantSwatch swatches) target) :
    getMaxScoredSwatchForTarget swatches target usedColors = some m := by
  rw [getMaxScoredSwatchForTarget, maxByScore, helig]
  exact maxByStep_foldl_last_max _ m l1 l2 none (by intro a ha; cases ha) hle hlt

/-- Claim C8 witness: the amended tie-break applied to the concrete tie of
the counterexample, selecting the last of the two equal scorers. -/
theorem claim8_tie_break_last_witness :
    ([Swatch.new (10, 10, 10) 5, Swatch.new (20, 20, 20) 5].filter
        (fun sw => shouldBeScoredForTarget sw tiePopulationTarget [])
        = [Swatch.new (10, 10, 10) 5] ++ Swatch.new (20, 20, 20) 5 :: []) ∧
      getMaxScoredSwatchForTarget
        [Swatch.new (10, 10, 10) 5, Swatch.new (20, 20, 20) 5] tiePopulationTarget []
        = some (Swatch.new (20, 20, 20) 5) :=
  ⟨by decide,
    claim8_tie_break_last [Swatch.new (10, 10, 10) 5, Swatch.new (20, 20, 20) 5]
      tiePopulationTarget [] [Swatch.new (10, 10, 10) 5] [] (Swatch.new (20, 20, 20) 5)
      (by decide) (by decide) (by decide)⟩

/-! Helper lemmas about the split-boxes queue. -/

theorem popMin_eq_none (pq : List Vbox) (h : popMin pq = none) : pq = [] := by
  cases pq with
  | nil => rfl
  | cons b rest =>
    exfalso
    rcases hrest : popMin rest with _ | ⟨m, rest'⟩
    · simp only [popMin, hrest] at h
      exact Option.noConfusion h
    · simp only [popMin, hrest] at h
      by_cases hle : Vbox.volume b ≤ Vbox.volume m
      · rw [if_pos hle] at h
        exact Option.noConfusion h
      · rw [if_neg hle] at h
        exact Option.noConfusion h

theorem popMin_length : ∀ (pq : List Vbox) (b : Vbox) (rest : List Vbox),
    popMin pq = some (b, rest) → rest.length + 1 = pq.length := by
  intro pq
  induction pq with
  | nil => intro b rest h; cases h
  | cons x xs ih =>
    intro b rest h
    rcases hxs : popMin xs with _ | ⟨m, rest'⟩
    · simp only [popMin, hxs] at h
      obtain ⟨hb, hr⟩ := Prod.mk.injEq .. ▸ Option.some.inj h
      subst hb
      subst hr
      have := popMin_eq_none xs hxs
      subst this
      rfl
    · simp only [popMin, hxs] at h
      by_cases hle : Vbox.volume x ≤ Vbox.volume m
      · rw [if_pos hle] at h
        obtain ⟨hb, hr⟩ := Prod.mk.injEq .. ▸ Option.some.inj h
        subst hb
        subst hr
        rfl
      · rw [if_neg hle] at h
        obtain ⟨hb, hr⟩ := Prod.mk.injEq .. ▸ Option.some.inj h
        subst hb
        subst hr
        have := ih m rest' hxs
        simp only [List.length_cons]
        omega

theorem splitBoxes_length_le (K : Nat) :
    ∀ (fuel : Nat) (pq : List Vbox), pq.length ≤ K → (splitBoxes K fuel pq).length ≤ K := by
  intro fuel
  induction fuel with
  | zero => intro pq h; exact h
  | succ f ih =>
    intro pq h
    rw [splitBoxes]
    by_cases hlen : pq.length < K
    · rw [if_pos hlen]
      rcases hpop : popMin pq with _ | br
      · exact h
      · have hrest := popMin_length pq br.1 br.2 hpop
        show (if Vbox.canSplit br.1 then
            splitBoxes K f (br.2 ++ [(Vbox.splitBox br.1).1, (Vbox.splitBox br.1).2])
          else br.2).length ≤ K
        by_cases hsplit : Vbox.canSplit br.1 = true
        · rw [if_pos hsplit]
          refine ih _ ?_
          rw [List.length_append]
          simp only [List.length_cons, List.length_nil]
          omega
        · rw [if_neg hsplit]
          omega
    · rw [if_neg hlen]
      exact h

/-- Claim C3: for every pixel buffer, filter list and K ≥ 1,
get_quantized_colors returns at most K swatches. -/
theorem claim3_swatch_count_bound (pixels : List Rgb) (K : Nat) (filters : List ColorFilter)
    (hK : 1 ≤ K) : (getQuantizedColors pixels K filters).length ≤ K := by
  rw [getQuantizedColors, getQuantizedColorsOn]
  by_cases h : (buildHist pixels).length ≤ K
  · rw [if_pos h]
    rw [List.length_map]
    calc (sortColors ((buildHist pixels).filter fun e => !shouldIgnoreColor filters e.1)).length
        = ((buildHist pixels).filter fun e => !shouldIgnoreColor filters e.1).length :=
          (List.perm_insertionSort keyLe _).length_eq
      _ ≤ (buildHist pixels).length := List.length_filter_le _ _
      _ ≤ K := h
  · rw [if_neg h]
    rw [quantizePixels]
    refine le_trans (List.length_filter_le _ _) ?_
    rw [List.length_map]
    exact splitBoxes_length_le K (K + 1) _ hK

/-- Claim C3 witness: the bound instantiated at a single gray pixel with
K = 1 and no filters. -/
theorem claim3_swatch_count_bound_witness :
    1 ≤ 1 ∧ (getQuantizedColors [((128, 128, 128) : Rgb)] 1 []).length ≤ 1 :=
  ⟨le_refl 1, claim3_swatch_count_bound [((128, 128, 128) : Rgb)] 1 [] (le_refl 1)⟩

/-! Helper lemmas about populations and the split point. -/

theorem population_cons (e : Entry) (l : List Entry) :
    Vbox.population (e :: l) = e.2 + Vbox.population l := by
  simp [Vbox.population]

theorem population_append (l1 l2 : List Entry) :
    Vbox.population (l1 ++ l2) = Vbox.population l1 + Vbox.population l2 := by
  simp [Vbox.population]

theorem population_perm {l1 l2 : List Entry} (h : l1.Perm l2) :
    Vbox.population l1 = Vbox.population l2 :=
  (h.map Prod.snd).sum_eq

theorem findSplitPointAux_pos (mid : Nat) :
    ∀ (l : List Entry) (pop i : Nat), 1 ≤ findSplitPointAux mid pop i l := by
  intro l
  induction l with
  | nil => intro pop i; exact le_refl 1
  | cons e rest ih =>
    intro pop i
    simp only [findSplitPointAux]
    by_cases hcross : pop + e.2 ≥ mid
    · rw [if_pos hcross]
      exact le_max_right i 1
    · rw [if_neg hcross]
      exact ih (pop + e.2) (i + 1)

theorem findSplitPointAux_le (mid : Nat) :
    ∀ (l : List Entry) (pop i : Nat), l ≠ [] → 1 ≤ i →
      mid ≤ pop + Vbox.population l → findSplitPointAux mid pop i l ≤ i + l.length - 1 := by
  intro l
  induction l with
  | nil => intro pop i hne _ _; exact absurd rfl hne
  | cons e rest ih =>
    intro pop i _ hi hmid
    simp only [findSplitPointAux]
    by_cases hcross : pop + e.2 ≥ mid
    · rw [if_pos hcross]
      have hmax : max i 1 = i := Nat.max_eq_left hi
      simp only [List.length_cons]
      omega
    · rw [if_neg hcross]
      rcases rest with _ | ⟨e2, rest'⟩
      · exfalso
        have hp : Vbox.population [e] = e.2 := by simp [Vbox.population]
        omega
      · have hrec := ih (pop + e.2) (i + 1) (by simp) (by omega)
          (by rw [population_cons] at hmid; omega)
        simp only [List.length_cons] at hrec ⊢
        omega

theorem findSplitPoint_bounds (b : Vbox) (h2 : 2 ≤ b.length) :
    1 ≤ Vbox.findSplitPoint b ∧ Vbox.findSplitPoint b ≤ b.length - 1 := by
  refine ⟨findSplitPointAux_pos _ b 0 0, ?_⟩
  rcases b with _ | ⟨e, rest⟩
  · simp at h2
  · rcases rest with _ | ⟨e2, rest'⟩
    · simp at h2
    · rw [Vbox.findSplitPoint]
      show (if 0 + e.2 ≥ Vbox.population (e :: e2 :: rest') / 2 then max 0 1
          else findSplitPointAux (Vbox.population (e :: e2 :: rest') / 2)
            (0 + e.2) (0 + 1) (e2 :: rest')) ≤ (e :: e2 :: rest').length - 1
      by_cases hcross : 0 + e.2 ≥ Vbox.population (e :: e2 :: rest') / 2
      · rw [if_pos hcross]
        simp only [List.length_cons]
        omega
      · rw [if_neg hcross]
        have hmid : Vbox.population (e :: e2 :: rest') / 2
            ≤ (0 + e.2) + Vbox.population (e2 :: rest') := by
          rw [population_cons]
          have hd := Nat.div_le_self (e.2 + Vbox.population (e2 :: rest')) 2
          omega
        have hrec := findSplitPointAux_le _ (e2 :: rest') (0 + e.2) (0 + 1) (by simp)
          (le_refl 1) hmid
        simp only [List.length_cons] at hrec ⊢
        omega

/-- Claim C4: splitting a splittable box of N ≥ 2 entries with population P
yields two boxes whose entry counts sum to N and whose populations sum to
P, and neither returned box is empty. -/
theorem claim4_split_conservation (b : Vbox) (h : 2 ≤ b.length) :
    (Vbox.splitBox b).1.length + (Vbox.splitBox b).2.length = b.length ∧
      Vbox.population (Vbox.splitBox b).1 + Vbox.population (Vbox.splitBox b).2
        = Vbox.population b ∧
      (Vbox.splitBox b).1 ≠ [] ∧ (Vbox.splitBox b).2 ≠ [] := by
  have hperm : (Vbox.sortByLongestDimension b).Perm b := List.perm_insertionSort _ _
  have hlen : (Vbox.sortByLongestDimension b).length = b.length := hperm.length_eq
  have hpop : Vbox.population (Vbox.sortByLongestDimension b) = Vbox.population b :=
    population_perm hperm
  have hb := findSplitPoint_bounds (Vbox.sortByLongestDimension b) (by omega)
  have e1 : (Vbox.splitBox b).1 = (Vbox.sortByLongestDimension b).take
      (Vbox.findSplitPoint (Vbox.sortByLongestDimension b)) := rfl
  have e2 : (Vbox.splitBox b).2 = (Vbox.sortByLongestDimension b).drop
      (Vbox.findSplitPoint (Vbox.sortByLongestDimension b)) := rfl
  refine ⟨?_, ?_, ?_, ?_⟩
  · rw [e1, e2, List.length_take, List.length_drop]
    omega
  · rw [e1, e2, ← population_append, List.take_append_drop]
    exact hpop
  · rw [e1]
    intro hnil
    have hl := congrArg List.length hnil
    rw [List.length_take, List.length_nil] at hl
    omega
  · rw [e2]
    intro hnil
    have hl := congrArg List.length hnil
    rw [List.length_drop, List.length_nil] at hl
    omega

/-- Claim C4 witness: the conservation applied to the 2-entry box holding
quantized colors (0,0,0) and (1,0,0) with one pixel each. -/
theorem claim4_split_conservation_witness :
    2 ≤ ([(((0, 0, 0) : Rgb), 1), ((1, 0, 0), 1)] : Vbox).length ∧
      ((Vbox.splitBox [(((0, 0, 0) : Rgb), 1), ((1, 0, 0), 1)]).1.length +
            (Vbox.splitBox [(((0, 0, 0) : Rgb), 1), ((1, 0, 0), 1)]).2.length
          = ([(((0, 0, 0) : Rgb), 1), ((1, 0, 0), 1)] : Vbox).length ∧
        Vbox.population (Vbox.splitBox [(((0, 0, 0) : Rgb), 1), ((1, 0, 0), 1)]).1 +
            Vbox.population (Vbox.splitBox [(((0, 0, 0) : Rgb), 1), ((1, 0, 0), 1)]).2
          = Vbox.population [(((0, 0, 0) : Rgb), 1), ((1, 0, 0), 1)] ∧
        (Vbox.splitBox [(((0, 0, 0) : Rgb), 1), ((1, 0, 0), 1)]).1 ≠ [] ∧
        (Vbox.splitBox [(((0, 0, 0) : Rgb), 1), ((1, 0, 0), 1)]).2 ≠ []) :=
  ⟨by decide,
    claim4_split_conservation [(((0, 0, 0) : Rgb), 1), ((1, 0, 0), 1)] (by decide)⟩

/-! Helper lemmas about per-target selection and the used-colors set. -/

theorem getMax_scored (swatches : List Swatch) (t : Target) (used : List Rgb) (m : Swatch)
    (h : getMaxScoredSwatchForTarget swatches t used = some m) :
    shouldBeScoredForTarget m t used = true := by
  rw [getMaxScoredSwatchForTarget] at h
  have hmem := maxByScore_mem _ _ _ h
  exact (List.mem_filter.mp hmem).2

theorem scored_rgb_not_used (m : Swatch) (t : Target) (used : List Rgb)
    (h : shouldBeScoredForTarget m t used = true) : Swatch.rgb m ∉ used := by
  intro hmem
  rw [shouldBeScoredForTarget] at h
  simp [hmem] at h

theorem mem_used_generateScoredTarget (swatches : List Swatch) (t : Target) (used : List Rgb)
    (c : Rgb) (hc : c ∈ used) : c ∈ (generateScoredTarget swatches t used).2 := by
  rw [generateScoredTarget]
  by_cases hex : t.isExclusive
  · rw [if_pos hex]
    rcases hm : getMaxScoredSwatchForTarget swatches t used with _ | m
    · exact hc
    · exact List.mem_cons_of_mem _ hc
  · rw [if_neg hex]
    exact hc

theorem generateScoredTarget_selected (swatches : List Swatch) (t : Target) (used : List Rgb)
    (s : Swatch) (h : (generateScoredTarget swatches t used).1 = some s) :
    getMaxScoredSwatchForTarget swatches t used = some s ∧
      (generateScoredTarget swatches t used).2 = Swatch.rgb s :: used := by
  rw [generateScoredTarget] at h ⊢
  by_cases hex : t.isExclusive
  · rw [if_pos hex] at h ⊢
    rcases hm : getMaxScoredSwatchForTarget swatches t used with _ | m
    · rw [hm] at h
      exact absurd h Option.noConfusion
    · rw [hm] at h
      have hms : m = s := Option.some.inj h
      subst hms
      exact ⟨rfl, rfl⟩
  · rw [if_neg hex] at h
    exact absurd h Option.noConfusion

theorem selectSwatchesAux_rgb_ne (swatches : List Swatch) :
    ∀ (ts : List Target) (used : List Rgb) (c : Rgb), c ∈ used →
      ∀ (k : Nat) (s' : Swatch),
        (selectSwatchesAux swatches ts used)[k]? = some (some s') → Swatch.rgb s' ≠ c := by
  intro ts
  induction ts with
  | nil =>
    intro used c _ k s' h
    simp [selectSwatchesAux] at h
  | cons t ts ih =>
    intro used c hc k s' h
    rw [selectSwatchesAux] at h
    cases k with
    | zero =>
      rw [List.getElem?_cons_zero] at h
      have hsel := Option.some.inj h
      have hmax := (generateScoredTarget_selected swatches (Target.normalizeWeights t)
        used s' hsel).1
      have hscored := getMax_scored _ _ _ _ hmax
      have hnot := scored_rgb_not_used _ _ _ hscored
      intro heq
      exact hnot (heq ▸ hc)
    | succ k =>
      rw [List.getElem?_cons_succ] at h
      exact ih _ c (mem_used_generateScoredTarget swatches (Target.normalizeWeights t)
        used c hc) k s' h

theorem selectSwatchesAux_lt (swatches : List Swatch) :
    ∀ (ts : List Target) (used : List Rgb) (i j : Nat) (s s' : Swatch), i < j →
      (selectSwatchesAux swatches ts used)[i]? = some (some s) →
      (selectSwatchesAux swatches ts used)[j]? = some (some s') →
      Swatch.rgb s ≠ Swatch.rgb s' := by
  intro ts
  induction ts with
  | nil =>
    intro used i j s s' _ hi _
    simp [selectSwatchesAux] at hi
  | cons t ts ih =>
    intro used i j s s' hij hi hj
    rw [selectSwatchesAux] at hi hj
    cases i with
    | zero =>
      rw [List.getElem?_cons_zero] at hi
      have hsel := Option.some.inj hi
      have hrec := generateScoredTarget_selected swatches (Target.normalizeWeights t)
        used s hsel
      obtain ⟨k, rfl⟩ : ∃ k, j = k + 1 := ⟨j - 1, by omega⟩
      rw [List.getElem?_cons_succ] at hj
      have hmem : Swatch.rgb s ∈ (generateScoredTarget swatches
          (Target.normalizeWeights t) used).2 := by
        rw [hrec.2]
        exact List.mem_cons_self _ _
      exact (selectSwatchesAux_rgb_ne swatches ts _ (Swatch.rgb s) hmem k s' hj).symm
    | succ i =>
      obtain ⟨k, rfl⟩ : ∃ k, j = k + 1 := ⟨j - 1, by omega⟩
      rw [List.getElem?_cons_succ] at hi hj
      exact ih _ i k s s' (by omega) hi hj

/-- Claim C5: in one palette-generation run, no RGB color is assigned to
two different targets: whenever the selection pass picks swatches for two
distinct positions in the target list, the two selected swatches have
different RGB values — for any targets, including exclusive targets with
overlapping acceptance ranges, in any order. -/
theorem claim5_target_exclusivity (swatches : List Swatch) (targets : List Target)
    (i j : Nat) (s s' : Swatch) (hij : i ≠ j)
    (hi : (selectSwatches swatches targets)[i]? = some (some s))
    (hj : (selectSwatches swatches targets)[j]? = some (some s')) :
    Swatch.rgb s ≠ Swatch.rgb s' := by
  rcases Nat.lt_or_ge i j with hlt | hge
  · exact selectSwatchesAux_lt swatches targets [] i j s s' hlt hi hj
  · have hlt : j < i := by omega
    exact (selectSwatchesAux_lt swatches targets [] j i s' s hlt hj hi).symm

/-- Claim C5 witness: two overlapping full-range exclusive targets pick the
two swatches of a 2-swatch palette; the selected colors differ. -/
theorem claim5_target_exclusivity_witness :
    (0 : Nat) ≠ 1 ∧
      (selectSwatches [Swatch.new (100, 150, 200) 4, Swatch.new (200, 50, 50) 9]
          [Target.new 1, Target.new 2])[0]? = some (some (Swatch.new (200, 50, 50) 9)) ∧
      (selectSwatches [Swatch.new (100, 150, 200) 4, Swatch.new (200, 50, 50) 9]
          [Target.new 1, Target.new 2])[1]? = some (some (Swatch.new (100, 150, 200) 4)) ∧
      Swatch.rgb (Swatch.new (200, 50, 50) 9) ≠ Swatch.rgb (Swatch.new (100, 150, 200) 4) :=
  ⟨by omega, by decide, by decide,
    claim5_target_exclusivity [Swatch.new (100, 150, 200) 4, Swatch.new (200, 50, 50) 9]
      [Target.new 1, Target.new 2] 0 1 (Swatch.new (200, 50, 50) 9)
      (Swatch.new (100, 150, 200) 4) (by omega) (by decide) (by decide)⟩

/-! Helper lemmas about the packed sort key and histogram-order
independence. -/

theorem packedKey_eq (r g b : Nat) (hg : g < 32) (hb : b < 32) :
    packedKey (r, g, b) = 1024 * r + 32 * g + b := by
  have h1 : (g <<< 5) < 2 ^ 10 := by
    rw [Nat.shiftLeft_eq]
    have : (2 : Nat) ^ 5 = 32 := by norm_num
    rw [this]
    have : (2 : Nat) ^ 10 = 1024 := by norm_num
    rw [this]
    omega
  have h2 : b < 2 ^ 5 := by
    have : (2 : Nat) ^ 5 = 32 := by norm_num
    omega
  show (r <<< 10) ||| (g <<< 5) ||| b = 1024 * r + 32 * g + b
  calc (r <<< 10) ||| (g <<< 5) ||| b
      = (2 ^ 10 * r ||| g <<< 5) ||| b := by
        rw [Nat.shiftLeft_eq, Nat.mul_comm]
    _ = (2 ^ 10 * r + g <<< 5) ||| b := by
        rw [← Nat.mul_add_lt_is_or h1 r]
    _ = (2 ^ 5 * (2 ^ 5 * r + g)) ||| b := by
        rw [Nat.shiftLeft_eq]
        congr 1
        ring
    _ = 2 ^ 5 * (2 ^ 5 * r + g) + b := by
        rw [← Nat.mul_add_lt_is_or h2]
    _ = 1024 * r + 32 * g + b := by ring

theorem packedKey_inj (c1 c2 : Rgb)
    (h1 : c1.2.1 < 32 ∧ c1.2.2 < 32) (h2 : c2.2.1 < 32 ∧ c2.2.2 < 32)
    (heq : packedKey c1 = packedKey c2) : c1 = c2 := by
  obtain ⟨r1, g1, b1⟩ := c1
  obtain ⟨r2, g2, b2⟩ := c2
  have hg1 : g1 < 32 := h1.1
  have hb1 : b1 < 32 := h1.2
  have hg2 : g2 < 32 := h2.1
  have hb2 : b2 < 32 := h2.2
  rw [packedKey_eq r1 g1 b1 hg1 hb1, packedKey_eq r2 g2 b2 hg2 hb2] at heq
  have hrgb : r1 = r2 ∧ g1 = g2 ∧ b1 = b2 := by omega
  obtain ⟨rfl, rfl, rfl⟩ := hrgb
  rfl

theorem sortColors_eq_of_perm (l1 l2 : List Entry) (hp : l1.Perm l2)
    (hnd : ((l1.map Prod.fst).map packedKey).Nodup) : sortColors l1 = sortColors l2 := by
  have hp1 : (sortColors l1).Perm l1 := List.perm_insertionSort keyLe l1
  have hp2 : (sortColors l2).Perm l2 := List.perm_insertionSort keyLe l2
  have hP : (sortColors l1).Perm (sortColors l2) := hp1.trans (hp.trans hp2.symm)
  have hmap1 : ((sortColors l1).map Prod.fst).Perm (l1.map Prod.fst) := hp1.map _
  have hmap2 : ((sortColors l2).map Prod.fst).Perm (l1.map Prod.fst) :=
    (hp2.map _).trans ((hp.map _).symm)
  have hnd1 : (((sortColors l1).map Prod.fst).map packedKey).Nodup :=
    ((hmap1.map packedKey).nodup_iff).mpr hnd
  have hnd2 : (((sortColors l2).map Prod.fst).map packedKey).Nodup :=
    ((hmap2.map packedKey).nodup_iff).mpr hnd
  have hnd1' : ((sortColors l1).map (packedKey ∘ Prod.fst)).Nodup := by
    rw [← List.map_map]
    exact hnd1
  have hnd2' : ((sortColors l2).map (packedKey ∘ Prod.fst)).Nodup := by
    rw [← List.map_map]
    exact hnd2
  have hpairne1 : (sortColors l1).Pairwise (fun e1 e2 => packedKey e1.1 ≠ packedKey e2.1) :=
    List.pairwise_map.mp hnd1'
  have hpairne2 : (sortColors l2).Pairwise (fun e1 e2 => packedKey e1.1 ≠ packedKey e2.1) :=
    List.pairwise_map.mp hnd2'
  have hs1 : (sortColors l1).Pairwise keyLe := List.sorted_insertionSort keyLe l1
  have hs2 : (sortColors l2).Pairwise keyLe := List.sorted_insertionSort keyLe l2
  have hlt1 : (sortColors l1).Pairwise keyLt :=
    (List.pairwise_and_iff.mpr ⟨hs1, hpairne1⟩).imp
      (fun h => Nat.lt_of_le_of_ne h.1 h.2)
  have hlt2 : (sortColors l2).Pairwise keyLt :=
    (List.pairwise_and_iff.mpr ⟨hs2, hpairne2⟩).imp
      (fun h => Nat.lt_of_le_of_ne h.1 h.2)
  exact List.eq_of_perm_of_sorted hP hlt1 hlt2

/-- Claim C6: the quantizer's output is independent of the histogram map's
iteration order.  For any two enumerations of the same histogram (the same
entries, with distinct quantized colors whose channels fit the 5-bit
quantization width, in any order), get_quantized_colors produces the
identical swatch list, because the entries are sorted by the packed R-G-B
key before anything order-sensitive happens.  Together with the
deterministic downstream pipeline this makes two runs on the same pixel
buffer, K, and filters yield the same swatch list. -/
theorem claim6_order_independence (hist1 hist2 : List Entry) (K : Nat)
    (filters : List ColorFilter) (hperm : hist1.Perm hist2)
    (hchan : ∀ e ∈ hist1, e.1.2.1 < 32 ∧ e.1.2.2 < 32)
    (hnd : (hist1.map Prod.fst).Nodup) :
    getQuantizedColorsOn hist1 K filters = getQuantizedColorsOn hist2 K filters := by
  have hkeys : ((hist1.map Prod.fst).map packedKey).Nodup := by
    refine List.Nodup.map_on ?_ hnd
    intro x hx y hy hxy
    have hxb : x.2.1 < 32 ∧ x.2.2 < 32 := by
      obtain ⟨e, he, rfl⟩ := List.mem_map.mp hx
      exact hchan e he
    have hyb : y.2.1 < 32 ∧ y.2.2 < 32 := by
      obtain ⟨e, he, rfl⟩ := List.mem_map.mp hy
      exact hchan e he
    exact packedKey_inj x y hxb hyb hxy
  have hpf : (hist1.filter fun e => !shouldIgnoreColor filters e.1).Perm
      (hist2.filter fun e => !shouldIgnoreColor filters e.1) :=
    hperm.filter _
  have hsubf : ((hist1.filter fun e => !shouldIgnoreColor filters e.1).map Prod.fst).Sublist
      (hist1.map Prod.fst) :=
    (List.filter_sublist _).map _
  have hndf : (((hist1.filter fun e => !shouldIgnoreColor filters e.1).map Prod.fst).map
      packedKey).Nodup :=
    (hsubf.map packedKey).nodup hkeys
  have hsort := sortColors_eq_of_perm _ _ hpf hndf
  rw [getQuantizedColorsOn, getQuantizedColorsOn, hperm.length_eq, hsort]

/-- Claim C6 witness: the order-independence applied to a concrete 2-entry
histogram enumerated in both orders. -/
theorem claim6_order_independence_witness :
    ([((1, 2, 3), 4), ((5, 6, 7), 8)] : List Entry).Perm [((5, 6, 7), 8), ((1, 2, 3), 4)] ∧
      (∀ e ∈ ([((1, 2, 3), 4), ((5, 6, 7), 8)] : List Entry),
        e.1.2.1 < 32 ∧ e.1.2.2 < 32) ∧
      (([((1, 2, 3), 4), ((5, 6, 7), 8)] : List Entry).map Prod.fst).Nodup ∧
      getQuantizedColorsOn [((1, 2, 3), 4), ((5, 6, 7), 8)] 16 [DefaultFilter]
        = getQuantizedColorsOn [((5, 6, 7), 8), ((1, 2, 3), 4)] 16 [DefaultFilter] :=
  ⟨by decide, by decide, by decide,
    claim6_order_independence [((1, 2, 3), 4), ((5, 6, 7), 8)]
      [((5, 6, 7), 8), ((1, 2, 3), 4)] 16 [DefaultFilter]
      (by decide) (by decide) (by decide)⟩

end Prominence
